import Mathlib

/-!
Verification development for the playback / play-along core of
`src/neothesia/src/scene/playing_scene/midi_player.rs`.

Times are modelled in nanoseconds as natural numbers: `std::time::Instant`
becomes a `Nat` clock value threaded explicitly through the operations that
call `Instant::now()`, and `std::time::Duration` becomes a `Nat` amount of
nanoseconds (`Duration::as_millis()` is division by 1000000; `Instant`
subtraction is saturating `Nat` subtraction, matching the saturating
behaviour of `Instant::sub`).
-/

/-- Modelled from the spec: `piano_math::KeyboardRange` is external to the
sources. The spec describes it as an inclusive set or interval of valid note
numbers, used by this core only through membership (`contains`), so it is
modelled as a membership predicate on note numbers. -/
def KeyboardRange : Type := Nat → Bool

def KeyboardRange.contains (r : KeyboardRange) (note_id : Nat) : Bool :=
  r note_id

/-- The `KeyPressSource` enum from the source. -/
inductive KeyPressSource where
  | File
  | User

/-- The `UserPress` struct from the source: an `Instant` timestamp (in
nanoseconds) and a `u8` note number. -/
structure UserPress where
  timestamp : Nat
  note_id : Nat
deriving DecidableEq, Repr

/-- The `PlayAlong` struct from the source. `required_notes: HashSet<u8>` is
a `Finset Nat`; `user_pressed_recently: VecDeque<UserPress>` is a list with
its head at the front of the deque. -/
structure PlayAlong where
  user_keyboard_range : KeyboardRange
  required_notes : Finset Nat
  user_pressed_recently : List UserPress

/-- `PlayAlong::new`. -/
def PlayAlong.new (user_keyboard_range : KeyboardRange) : PlayAlong :=
  { user_keyboard_range := user_keyboard_range
    required_notes := ∅
    user_pressed_recently := [] }

/-- The expiry condition of `PlayAlong::update`: `elapsed.as_millis() > 500`
where `elapsed = now - item.timestamp`. -/
def expired (now : Nat) (x : UserPress) : Prop :=
  500 < (now - x.timestamp) / 1000000

instance (now : Nat) (x : UserPress) : Decidable (expired now x) :=
  inferInstanceAs (Decidable (500 < (now - x.timestamp) / 1000000))

/-- The front-scanning eviction loop of `PlayAlong::update`: pop the front
while it is expired, stop at the first non-expired entry. -/
def expireFront (now : Nat) : List UserPress → List UserPress
  | [] => []
  | item :: rest =>
    if expired now item then expireFront now rest
    else item :: rest

/-- `PlayAlong::update`, with `Instant::now()` passed in as `now`. -/
def PlayAlong.update (s : PlayAlong) (now : Nat) : PlayAlong :=
  { s with user_pressed_recently := expireFront now s.user_pressed_recently }

/-- `PlayAlong::user_press_key`, with `Instant::now()` passed in as `now`. -/
def PlayAlong.user_press_key (s : PlayAlong) (note_id : Nat) (active : Bool)
    (now : Nat) : PlayAlong :=
  if active then
    { s with
      user_pressed_recently :=
        s.user_pressed_recently ++ [{ timestamp := now, note_id := note_id }]
      required_notes := s.required_notes.erase note_id }
  else s

/-- The `enumerate().find(...)` / `remove(id)` pair of
`PlayAlong::file_press_key`: remove the earliest entry with the given note
id, returning `none` when no entry matches. -/
def consumeFirst (note_id : Nat) : List UserPress → Option (List UserPress)
  | [] => none
  | item :: rest =>
    if item.note_id = note_id then some rest
    else (consumeFirst note_id rest).map (fun l => item :: l)

/-- `PlayAlong::file_press_key`. -/
def PlayAlong.file_press_key (s : PlayAlong) (note_id : Nat) (active : Bool) :
    PlayAlong :=
  if active then
    match consumeFirst note_id s.user_pressed_recently with
    | some rest => { s with user_pressed_recently := rest }
    | none => { s with required_notes := insert note_id s.required_notes }
  else
    { s with required_notes := s.required_notes.erase note_id }

/-- `PlayAlong::press_key`, with `Instant::now()` passed in as `now` (used
only by the user branch). -/
def PlayAlong.press_key (s : PlayAlong) (src : KeyPressSource) (note_id : Nat)
    (active : Bool) (now : Nat) : PlayAlong :=
  if s.user_keyboard_range.contains note_id then
    match src with
    | KeyPressSource.User => s.user_press_key note_id active now
    | KeyPressSource.File => s.file_press_key note_id active
  else s

/-- `PlayAlong::are_required_keys_pressed`. -/
def PlayAlong.are_required_keys_pressed (s : PlayAlong) : Bool :=
  decide (s.required_notes = ∅)

/-- The payload of a `midi_file::MidiEvent`, restricted to what
`MidiPlayer::update` inspects: `NoteOn`/`NoteOff` with their key, and a
catch-all for every other message kind. -/
inductive MidiMessage where
  | NoteOn (key : Nat)
  | NoteOff (key : Nat)
  | Other
deriving DecidableEq, Repr

/-- A timed midi event of the merged track: channel, scheduled offset in
nanoseconds, and message. -/
structure MidiEvent where
  channel : Nat
  timestamp : Nat
  message : MidiMessage
deriving DecidableEq, Repr

/-- Modelled from the spec: `midi_file::PlaybackState` is an external crate
not present in the sources; this follows the PlaybackClock contract of the
spec (current position, paused flag, cursor index of the next unconsumed
event, and the fixed total length used by `set_percentage_time`). -/
structure PlaybackState where
  current_time : Nat
  paused : Bool
  cursor_index : Nat
  lenght : Nat
deriving DecidableEq, Repr

/-- Modelled from the spec: `PlaybackState::update` (the clock's advance).
If paused it returns no events and does not mutate the time; otherwise it
adds `elapsed` to the time and returns, in order, the events whose offset
lies in the crossed window, moving the cursor past them. -/
def PlaybackState.update (s : PlaybackState) (track : List MidiEvent)
    (elapsed : Nat) : PlaybackState × List MidiEvent :=
  if s.paused then (s, [])
  else
    let newTime := s.current_time + elapsed
    let crossed :=
      (track.drop s.cursor_index).takeWhile (fun e => decide (e.timestamp < newTime))
    ({ s with current_time := newTime
              cursor_index := s.cursor_index + crossed.length }, crossed)

/-- Modelled from the spec: `PlaybackState::pause`. -/
def PlaybackState.pause (s : PlaybackState) : PlaybackState :=
  { s with paused := true }

/-- Modelled from the spec: `PlaybackState::resume`. -/
def PlaybackState.resume (s : PlaybackState) : PlaybackState :=
  { s with paused := false }

/-- Modelled from the spec: `PlaybackState::is_paused`. -/
def PlaybackState.is_paused (s : PlaybackState) : Bool :=
  s.paused

/-- Modelled from the spec: `PlaybackState::time`, a pure accessor. -/
def PlaybackState.time (s : PlaybackState) : Nat :=
  s.current_time

/-- Modelled from the spec: `PlaybackState::set_time` sets the position and
rescans the whole track from the start, repositioning the cursor at the
first event with offset at or after the new position. -/
def PlaybackState.set_time (s : PlaybackState) (track : List MidiEvent)
    (time : Nat) : PlaybackState :=
  { s with current_time := time
           cursor_index := track.findIdx (fun e => decide (time ≤ e.timestamp)) }

/-- Modelled from the spec: the `OutputManager` sink is observed as a trace
of the commands sent to it — forwarded midi events and the explicit
stop-all-sounding-notes signal (`OutputManager::stop_all`). -/
inductive OutputCmd where
  | midiEvent (e : MidiEvent)
  | stopAll
deriving DecidableEq, Repr

/-- The `MidiPlayer` struct: the playback clock, the play-along state and
the observable trace of commands sent to the output manager. -/
structure MidiPlayer where
  playback : PlaybackState
  play_along : PlayAlong
  output : List OutputCmd

/-- `MidiPlayer::clear`: sends the stop-all signal to the output manager. -/
def MidiPlayer.clear (p : MidiPlayer) : MidiPlayer :=
  { p with output := p.output ++ [OutputCmd.stopAll] }

/-- The cast `(speed_multiplier * 10.0) as u32` of `MidiPlayer::update`,
with the `f32` multiplier modelled as an exact rational: truncation toward
zero, clamped to zero for negative values (as the `as u32` saturating cast
does). -/
def speedFactor (speed_multiplier : ℚ) : Nat :=
  (speed_multiplier * 10).floor.toNat

/-- `MidiPlayer::update`: runs the play-along expiry sweep, computes
`elapsed = (delta / 10) * ((speed_multiplier * 10.0) as u32)` (`Duration`
division and multiplication are exact in whole nanoseconds), advances the
clock, forwards every crossed event to the output manager, feeds non-channel-9
note events into play-along as file presses, and returns `none` when
paused, `some events` otherwise. -/
def MidiPlayer.update (p : MidiPlayer) (track : List MidiEvent)
    (now delta : Nat) (speed_multiplier : ℚ) :
    MidiPlayer × Option (List MidiEvent) :=
  let pa := p.play_along.update now
  let elapsed := delta / 10 * speedFactor speed_multiplier
  let pb := (p.playback.update track elapsed).1
  let events := (p.playback.update track elapsed).2
  let out := p.output ++ events.map OutputCmd.midiEvent
  let pa := events.foldl (fun pa e =>
    if e.channel = 9 then pa
    else
      match e.message with
      | MidiMessage.NoteOn key => pa.press_key KeyPressSource.File key true now
      | MidiMessage.NoteOff key => pa.press_key KeyPressSource.File key false now
      | MidiMessage.Other => pa) pa
  let p' : MidiPlayer := { playback := pb, play_along := pa, output := out }
  if pb.is_paused then (p', none) else (p', some events)

/-- The body of `impl Drop for MidiPlayer`: `self.clear()`. -/
def MidiPlayer.drop (p : MidiPlayer) : MidiPlayer :=
  p.clear

/-- `MidiPlayer::pause`: clear (stop-all) then pause the clock. -/
def MidiPlayer.pause (p : MidiPlayer) : MidiPlayer :=
  let p := p.clear
  { p with playback := p.playback.pause }

/-- `MidiPlayer::resume`. -/
def MidiPlayer.resume (p : MidiPlayer) : MidiPlayer :=
  { p with playback := p.playback.resume }

/-- `MidiPlayer::set_time`: seek the clock, discard the events crossed by a
zero-elapsed advance, then clear (stop-all). -/
def MidiPlayer.set_time (p : MidiPlayer) (track : List MidiEvent)
    (time : Nat) : MidiPlayer :=
  let pb := p.playback.set_time track time
  let pb := (pb.update track 0).1
  MidiPlayer.clear { p with playback := pb }

/-- `MidiPlayer::rewind`: `delta` is a signed amount of milliseconds; a
negative delta saturating-subtracts, a nonnegative one adds (`(-delta) as
u64` equals `delta.natAbs` for every `i64`, including the wrapping
`i64::MIN` case). -/
def MidiPlayer.rewind (p : MidiPlayer) (track : List MidiEvent)
    (delta : Int) : MidiPlayer :=
  let time := p.playback.time
  let time :=
    if delta < 0 then time - delta.natAbs * 1000000
    else time + delta.natAbs * 1000000
  p.set_time track time

/-- The `Duration::from_secs_f32` conversion, with the `f32` seconds value
modelled as an exact rational amount of seconds turned into whole
nanoseconds. -/
def durFromSecs (secs : ℚ) : Nat :=
  (secs * 1000000000).floor.toNat

/-- `MidiPlayer::set_percentage_time`: seeks to
`(p * lenght().as_secs_f32()).max(0.0)` seconds. -/
def MidiPlayer.set_percentage_time (p : MidiPlayer) (track : List MidiEvent)
    (percent : ℚ) : MidiPlayer :=
  p.set_time track
    (durFromSecs (max (percent * ((p.playback.lenght : ℚ) / 1000000000)) 0))

/-- The speed-scaling formula in the words of the spec sentence under test:
the delta quantized into whole-millisecond buckets, multiplied by the speed
factor, reconstituted into nanoseconds. -/
def specElapsedMsBuckets (delta : Nat) (speed_multiplier : ℚ) : Nat :=
  (((delta / 1000000 : Nat) : ℚ) * speed_multiplier * 1000000).floor.toNat

/-- The disjointness invariant of the play-along state: no note is both
still required and already covered by a queued user press. -/
abbrev PlayAlong.Inv (s : PlayAlong) : Prop :=
  ∀ n ∈ s.required_notes, ∀ x ∈ s.user_pressed_recently, x.note_id ≠ n

/-! Helper lemmas about the eviction scan and the queue consumption. -/

theorem expireFront_subset (now : Nat) (l : List UserPress) :
    ∀ x ∈ expireFront now l, x ∈ l := by
  induction l with
  | nil => simp [expireFront]
  | cons a rest ih =>
    intro x hx
    rw [expireFront] at hx
    split at hx
    · exact List.mem_cons_of_mem a (ih x hx)
    · exact hx

theorem expireFront_drop (now : Nat) :
    ∀ l : List UserPress, ∃ k, expireFront now l = l.drop k ∧
      (∀ x ∈ l.take k, expired now x) ∧
      ∀ h : k < l.length, ¬ expired now (l.get ⟨k, h⟩) := by
  intro l
  induction l with
  | nil =>
    refine ⟨0, rfl, by simp, ?_⟩
    intro h
    simp at h
  | cons a rest ih =>
    by_cases h : expired now a
    · obtain ⟨k, hk, hall, hstop⟩ := ih
      refine ⟨k + 1, ?_, ?_, ?_⟩
      · simpa [expireFront, h] using hk
      · intro x hx
        simp only [List.take_succ_cons, List.mem_cons] at hx
        rcases hx with rfl | hx
        · exact h
        · exact hall x hx
      · intro hlt
        have hlt' : k < rest.length := Nat.lt_of_succ_lt_succ hlt
        simpa using hstop hlt'
    · refine ⟨0, by simp [expireFront, h], by simp, ?_⟩
      intro hlt
      simpa using h

theorem expireFront_complete (now : Nat) :
    ∀ l : List UserPress,
      l.Pairwise (fun a b => a.timestamp ≤ b.timestamp) →
      ∀ x ∈ expireFront now l, ¬ expired now x := by
  intro l
  induction l with
  | nil => simp [expireFront]
  | cons a rest ih =>
    intro hsort
    rw [List.pairwise_cons] at hsort
    obtain ⟨ha, hrest⟩ := hsort
    by_cases h : expired now a
    · simpa [expireFront, h] using ih hrest
    · intro x hx
      simp only [expireFront, if_neg h] at hx
      rcases List.mem_cons.mp hx with rfl | hx
      · exact h
      · intro hexp
        apply h
        have h1 : now - x.timestamp ≤ now - a.timestamp :=
          Nat.sub_le_sub_left (ha x hx) now
        have h2 : (now - x.timestamp) / 1000000 ≤ (now - a.timestamp) / 1000000 :=
          Nat.div_le_div_right h1
        exact lt_of_lt_of_le hexp h2

theorem expireFront_nil_of_all_expired (now : Nat) :
    ∀ l : List UserPress, (∀ x ∈ l, expired now x) → expireFront now l = [] := by
  intro l
  induction l with
  | nil => intro _; rfl
  | cons a rest ih =>
    intro h
    have ha : expired now a := h a (List.mem_cons_self a rest)
    simp [expireFront, ha, ih (fun x hx => h x (List.mem_cons_of_mem a hx))]

theorem expireFront_mem_append (now t n : Nat)
    (hne : ¬ expired now { timestamp := t, note_id := n }) :
    ∀ q : List UserPress,
      ({ timestamp := t, note_id := n } : UserPress)
        ∈ expireFront now (q ++ [{ timestamp := t, note_id := n }]) := by
  intro q
  induction q with
  | nil => simp [expireFront, hne]
  | cons a rest ih =>
    by_cases h : expired now a
    · simpa [expireFront, h] using ih
    · simp [expireFront, h]

theorem consumeFirst_eq_none (n : Nat) :
    ∀ l : List UserPress,
      (consumeFirst n l = none ↔ ∀ x ∈ l, x.note_id ≠ n) := by
  intro l
  induction l with
  | nil => simp [consumeFirst]
  | cons a rest ih =>
    by_cases h : a.note_id = n
    · simp [consumeFirst, h]
    · simp [consumeFirst, h, Option.map_eq_none', ih]

theorem consumeFirst_split (n : Nat) :
    ∀ l : List UserPress, (∃ x ∈ l, x.note_id = n) →
      ∃ l₁ x l₂, l = l₁ ++ x :: l₂ ∧ x.note_id = n ∧
        (∀ y ∈ l₁, y.note_id ≠ n) ∧ consumeFirst n l = some (l₁ ++ l₂) := by
  intro l
  induction l with
  | nil => simp
  | cons a rest ih =>
    intro hex
    by_cases h : a.note_id = n
    · exact ⟨[], a, rest, by simp, h, by simp, by simp [consumeFirst, h]⟩
    · have hex' : ∃ x ∈ rest, x.note_id = n := by
        rcases hex with ⟨x, hx, hxn⟩
        rcases List.mem_cons.mp hx with rfl | hx
        · exact absurd hxn h
        · exact ⟨x, hx, hxn⟩
      obtain ⟨l₁, x, l₂, heq, hxn, hl₁, hcf⟩ := ih hex'
      refine ⟨a :: l₁, x, l₂, by simp [heq], hxn, ?_, ?_⟩
      · intro y hy
        rcases List.mem_cons.mp hy with rfl | hy
        · exact h
        · exact hl₁ y hy
      · simp [consumeFirst, h, hcf]

theorem consumeFirst_subset (n : Nat) :
    ∀ l l' : List UserPress, consumeFirst n l = some l' →
      ∀ x ∈ l', x ∈ l := by
  intro l
  induction l with
  | nil =>
    intro l' h
    simp [consumeFirst] at h
  | cons a rest ih =>
    intro l' h x hx
    by_cases hn : a.note_id = n
    · simp only [consumeFirst, if_pos hn, Option.some.injEq] at h
      subst h
      exact List.mem_cons_of_mem a hx
    · simp only [consumeFirst, if_neg hn, Option.map_eq_some'] at h
      obtain ⟨l'', hl'', heq⟩ := h
      subst heq
      rcases List.mem_cons.mp hx with rfl | hx
      · exact List.mem_cons_self x rest
      · exact List.mem_cons_of_mem a (ih l'' hl'' x hx)

/-! Case-analysis lemmas for `press_key`. -/

theorem press_key_out_of_range (s : PlayAlong) (src : KeyPressSource)
    (n : Nat) (a : Bool) (t : Nat)
    (hr : s.user_keyboard_range.contains n = false) :
    s.press_key src n a t = s := by
  simp [PlayAlong.press_key, hr]

theorem press_key_user_active (s : PlayAlong) (n t : Nat)
    (hr : s.user_keyboard_range.contains n = true) :
    s.press_key KeyPressSource.User n true t
      = { s with
          user_pressed_recently :=
            s.user_pressed_recently ++ [{ timestamp := t, note_id := n }]
          required_notes := s.required_notes.erase n } := by
  simp [PlayAlong.press_key, hr, PlayAlong.user_press_key]

theorem press_key_user_inactive (s : PlayAlong) (n t : Nat)
    (hr : s.user_keyboard_range.contains n = true) :
    s.press_key KeyPressSource.User n false t = s := by
  simp [PlayAlong.press_key, hr, PlayAlong.user_press_key]

theorem press_key_file_matched (s : PlayAlong) (n t : Nat)
    (hr : s.user_keyboard_range.contains n = true)
    (l' : List UserPress)
    (hcf : consumeFirst n s.user_pressed_recently = some l') :
    s.press_key KeyPressSource.File n true t
      = { s with user_pressed_recently := l' } := by
  simp [PlayAlong.press_key, hr, PlayAlong.file_press_key, hcf]

theorem press_key_file_unmatched (s : PlayAlong) (n t : Nat)
    (hr : s.user_keyboard_range.contains n = true)
    (hcf : consumeFirst n s.user_pressed_recently = none) :
    s.press_key KeyPressSource.File n true t
      = { s with required_notes := insert n s.required_notes } := by
  simp [PlayAlong.press_key, hr, PlayAlong.file_press_key, hcf]

theorem press_key_file_inactive (s : PlayAlong) (n t : Nat)
    (hr : s.user_keyboard_range.contains n = true) :
    s.press_key KeyPressSource.File n false t
      = { s with required_notes := s.required_notes.erase n } := by
  simp [PlayAlong.press_key, hr, PlayAlong.file_press_key]

/-! Helper lemmas for the `MidiPlayer` operations. -/

theorem set_time_output (p : MidiPlayer) (track : List MidiEvent)
    (time : Nat) :
    (p.set_time track time).output = p.output ++ [OutputCmd.stopAll] := by
  simp [MidiPlayer.set_time, MidiPlayer.clear]

theorem set_time_current_time (p : MidiPlayer) (track : List MidiEvent)
    (time : Nat) :
    (p.set_time track time).playback.current_time = time := by
  by_cases h : p.playback.paused <;>
    simp [MidiPlayer.set_time, MidiPlayer.clear, PlaybackState.set_time,
      PlaybackState.update, h]

/-! Concrete states used by the witnesses. -/

/-- A keyboard range accepting every note. -/
def rangeFull : KeyboardRange := fun _ => true

/-- The 88-key range 21..=108. -/
def rangeMid : KeyboardRange := fun n => decide (21 ≤ n ∧ n ≤ 108)

def paReady : PlayAlong := PlayAlong.new rangeFull

def paMid : PlayAlong := PlayAlong.new rangeMid

/-- A play-along state with one queued user press of note 60 at time 0. -/
def paQueued : PlayAlong :=
  { user_keyboard_range := rangeFull
    required_notes := ∅
    user_pressed_recently := [{ timestamp := 0, note_id := 60 }] }

def pbRun : PlaybackState :=
  { current_time := 0, paused := false, cursor_index := 0, lenght := 1000000000 }

def pbStop : PlaybackState :=
  { current_time := 0, paused := true, cursor_index := 0, lenght := 1000000000 }

def mpRun : MidiPlayer :=
  { playback := pbRun, play_along := paReady, output := [] }

def mpStop : MidiPlayer :=
  { playback := pbStop, play_along := paReady, output := [] }

/-- A running player currently at 5ms. -/
def mpFive : MidiPlayer :=
  { playback :=
      { current_time := 5000000, paused := false, cursor_index := 0
        lenght := 1000000000 }
    play_along := paReady
    output := [] }

/-! The claims. -/

/-- C8: a `press_key` call, from either source, with either active flag,
for a note outside the keyboard range leaves the entire play-along state
unchanged. -/
theorem range_filtering (s : PlayAlong) (src : KeyPressSource) (n : Nat)
    (a : Bool) (t : Nat)
    (h : s.user_keyboard_range.contains n = false) :
    s.press_key src n a t = s :=
  press_key_out_of_range s src n a t h

theorem range_filtering_witness :
    PlayAlong.press_key paMid KeyPressSource.File 5 true 0 = paMid :=
  range_filtering paMid KeyPressSource.File 5 true 0 (by decide)

/-- C9: for an in-range note, a File-sourced `press_key` with `active =
false` erases the note from `required_notes` unconditionally and leaves the
pending queue alone, while a User-sourced `press_key` with `active = false`
is a no-op. -/
theorem deactivation_semantics (s : PlayAlong) (n t : Nat)
    (hr : s.user_keyboard_range.contains n = true) :
    (s.press_key KeyPressSource.File n false t).required_notes
        = s.required_notes.erase n ∧
    n ∉ (s.press_key KeyPressSource.File n false t).required_notes ∧
    (s.press_key KeyPressSource.File n false t).user_pressed_recently
        = s.user_pressed_recently ∧
    s.press_key KeyPressSource.User n false t = s := by
  rw [press_key_file_inactive s n t hr, press_key_user_inactive s n t hr]
  exact ⟨rfl, Finset.not_mem_erase n s.required_notes, rfl, rfl⟩

theorem deactivation_semantics_witness :
    PlayAlong.press_key paReady KeyPressSource.User 60 false 0 = paReady :=
  (deactivation_semantics paReady 60 0 (by decide)).2.2.2

/-- C2: a File note-on for an in-range note with no matching queued user
press inserts the note into `required_notes`, making
`are_required_keys_pressed` false; a subsequent User press removes it
again, restoring `are_required_keys_pressed` when no other note is
outstanding. -/
theorem late_press_reconciliation (st : PlayAlong) (n tF tU : Nat)
    (hr : st.user_keyboard_range.contains n = true)
    (hq : ∀ x ∈ st.user_pressed_recently, x.note_id ≠ n) :
    n ∈ (st.press_key KeyPressSource.File n true tF).required_notes ∧
    (st.press_key KeyPressSource.File n true tF).are_required_keys_pressed
        = false ∧
    n ∉ ((st.press_key KeyPressSource.File n true tF).press_key
        KeyPressSource.User n true tU).required_notes ∧
    (st.required_notes.erase n = ∅ →
      ((st.press_key KeyPressSource.File n true tF).press_key
        KeyPressSource.User n true tU).are_required_keys_pressed = true) := by
  have hcf : consumeFirst n st.user_pressed_recently = none :=
    (consumeFirst_eq_none n st.user_pressed_recently).mpr hq
  rw [press_key_file_unmatched st n tF hr hcf]
  have hr' : ({ st with required_notes := insert n st.required_notes }
      : PlayAlong).user_keyboard_range.contains n = true := hr
  rw [press_key_user_active _ n tU hr']
  refine ⟨Finset.mem_insert_self n st.required_notes, ?_, ?_, ?_⟩
  · simp [PlayAlong.are_required_keys_pressed, Finset.insert_ne_empty]
  · simp [Finset.erase_insert_eq_erase, Finset.mem_erase]
  · intro h
    simp [PlayAlong.are_required_keys_pressed, Finset.erase_insert_eq_erase, h]

theorem late_press_reconciliation_witness :
    (60 : Nat) ∈ (paReady.press_key KeyPressSource.File 60 true 0).required_notes :=
  (late_press_reconciliation paReady 60 0 7 (by decide) (by decide)).1

/-- C3: one `update` call evicts exactly a front prefix of expired entries
from the pending queue (every dropped entry is expired, the scan stops at
the first non-expired entry), leaves `required_notes` untouched, evicts
every expired entry whenever insertion order agrees with timestamp order,
and once every queued press is expired a later File note-on for any
in-range note can no longer be satisfied and is inserted into
`required_notes`. -/
theorem expiry_sweep (st : PlayAlong) (now : Nat) :
    (st.update now).required_notes = st.required_notes ∧
    (∃ k, (st.update now).user_pressed_recently
          = st.user_pressed_recently.drop k ∧
        (∀ x ∈ st.user_pressed_recently.take k, expired now x) ∧
        ∀ h : k < st.user_pressed_recently.length,
          ¬ expired now (st.user_pressed_recently.get ⟨k, h⟩)) ∧
    (st.user_pressed_recently.Pairwise (fun a b => a.timestamp ≤ b.timestamp) →
      ∀ x ∈ (st.update now).user_pressed_recently, ¬ expired now x) ∧
    ((∀ x ∈ st.user_pressed_recently, expired now x) →
      ∀ n tF, st.user_keyboard_range.contains n = true →
        ((st.update now).press_key KeyPressSource.File n true tF).required_notes
          = insert n st.required_notes) := by
  refine ⟨rfl, expireFront_drop now st.user_pressed_recently, ?_, ?_⟩
  · intro hsort x hx
    exact expireFront_complete now st.user_pressed_recently hsort x hx
  · intro hall n tF hr
    have hnil : expireFront now st.user_pressed_recently = [] :=
      expireFront_nil_of_all_expired now st.user_pressed_recently hall
    have hr' : (st.update now).user_keyboard_range.contains n = true := hr
    have hcf : consumeFirst n (st.update now).user_pressed_recently = none := by
      simp [PlayAlong.update, hnil, consumeFirst]
    rw [press_key_file_unmatched (st.update now) n tF hr' hcf]
    rfl

theorem expiry_sweep_witness :
    ((paQueued.update 601000000).press_key KeyPressSource.File 60 true 0).required_notes
      = insert 60 paQueued.required_notes :=
  (expiry_sweep paQueued 601000000).2.2.2 (by decide) 60 0 (by decide)

/-- C4: the disjointness invariant — no note is simultaneously in
`required_notes` and carried by a queued user press — holds of a fresh
state and is preserved by `update` and by every `press_key` call. -/
theorem disjointness_invariant :
    (∀ r : KeyboardRange, (PlayAlong.new r).Inv) ∧
    (∀ (s : PlayAlong) (now : Nat), s.Inv → (s.update now).Inv) ∧
    (∀ (s : PlayAlong) (src : KeyPressSource) (n : Nat) (a : Bool) (t : Nat),
      s.Inv → (s.press_key src n a t).Inv) := by
  refine ⟨?_, ?_, ?_⟩
  · intro r n hn
    simp [PlayAlong.new] at hn
  · intro s now h n hn x hx
    exact h n hn x (expireFront_subset now s.user_pressed_recently x hx)
  · intro s src n a t h
    by_cases hr : s.user_keyboard_range.contains n = true
    · cases src with
      | User =>
        cases a with
        | false =>
          rw [press_key_user_inactive s n t hr]
          exact h
        | true =>
          rw [press_key_user_active s n t hr]
          intro m hm x hx
          have hm' := Finset.mem_of_mem_erase hm
          have hmn := Finset.ne_of_mem_erase hm
          rcases List.mem_append.mp hx with hx | hx
          · exact h m hm' x hx
          · simp only [List.mem_singleton] at hx
            subst hx
            simpa using hmn.symm
      | File =>
        cases a with
        | false =>
          rw [press_key_file_inactive s n t hr]
          intro m hm x hx
          exact h m (Finset.mem_of_mem_erase hm) x hx
        | true =>
          cases hcf : consumeFirst n s.user_pressed_recently with
          | some l' =>
            rw [press_key_file_matched s n t hr l' hcf]
            intro m hm x hx
            exact h m hm x
              (consumeFirst_subset n s.user_pressed_recently l' hcf x hx)
          | none =>
            rw [press_key_file_unmatched s n t hr hcf]
            intro m hm x hx
            rcases Finset.mem_insert.mp hm with rfl | hm
            · exact (consumeFirst_eq_none m s.user_pressed_recently).mp hcf x hx
            · exact h m hm x hx
    · have hrf : s.user_keyboard_range.contains n = false := by
        simpa using hr
      rw [press_key_out_of_range s src n a t hrf]
      exact h

theorem disjointness_invariant_witness :
    ((PlayAlong.new rangeFull).press_key KeyPressSource.User 60 true 0).Inv :=
  disjointness_invariant.2.2 (PlayAlong.new rangeFull) KeyPressSource.User
    60 true 0 (by decide)

/-- C1: for an in-range note, a User press followed — within the 500ms
leeway, so that the press survives the expiry sweep — by a File note-on for
the same note leaves `required_notes` without that note, and the File
note-on consumes exactly the earliest still-queued entry carrying that
note id, so the count of queued presses for that note drops by one and the
consumed press cannot satisfy a second File note-on. -/
theorem early_press_reconciliation (st : PlayAlong) (n t1 now : Nat)
    (hr : st.user_keyboard_range.contains n = true)
    (ht : (now - t1) / 1000000 ≤ 500) :
    n ∉ (((st.press_key KeyPressSource.User n true t1).update now).press_key
        KeyPressSource.File n true now).required_notes ∧
    ∃ l₁ x l₂,
      ((st.press_key KeyPressSource.User n true t1).update now).user_pressed_recently
          = l₁ ++ x :: l₂ ∧
      x.note_id = n ∧
      (∀ y ∈ l₁, y.note_id ≠ n) ∧
      (((st.press_key KeyPressSource.User n true t1).update now).press_key
          KeyPressSource.File n true now).user_pressed_recently = l₁ ++ l₂ ∧
      (((st.press_key KeyPressSource.User n true t1).update now).press_key
          KeyPressSource.File n true now).user_pressed_recently.countP
            (fun y => decide (y.note_id = n)) + 1
        = ((st.press_key KeyPressSource.User n true t1).update
            now).user_pressed_recently.countP (fun y => decide (y.note_id = n)) := by
  have hne : ¬ expired now { timestamp := t1, note_id := n } :=
    Nat.not_lt.mpr ht
  have hstep1 : (st.press_key KeyPressSource.User n true t1).update now
      = { st with
          user_pressed_recently :=
            expireFront now (st.user_pressed_recently
              ++ [{ timestamp := t1, note_id := n }])
          required_notes := st.required_notes.erase n } := by
    rw [press_key_user_active st n t1 hr]
    rfl
  rw [hstep1]
  have hmem := expireFront_mem_append now t1 n hne st.user_pressed_recently
  obtain ⟨l₁, x, l₂, heq, hxn, hl₁, hcf⟩ :=
    consumeFirst_split n
      (expireFront now (st.user_pressed_recently
        ++ [{ timestamp := t1, note_id := n }]))
      ⟨{ timestamp := t1, note_id := n }, hmem, rfl⟩
  have hr' : ({ st with
      user_pressed_recently :=
        expireFront now (st.user_pressed_recently
          ++ [{ timestamp := t1, note_id := n }])
      required_notes := st.required_notes.erase n }
        : PlayAlong).user_keyboard_range.contains n = true := hr
  rw [press_key_file_matched _ n now hr' (l₁ ++ l₂) hcf]
  refine ⟨Finset.not_mem_erase n st.required_notes, l₁, x, l₂, heq, hxn, hl₁,
    rfl, ?_⟩
  show (l₁ ++ l₂).countP (fun y => decide (y.note_id = n)) + 1
      = (expireFront now (st.user_pressed_recently
          ++ [{ timestamp := t1, note_id := n }])).countP
          (fun y => decide (y.note_id = n))
  rw [heq]
  simp only [List.countP_append, List.countP_cons, hxn]
  simp
  omega

theorem early_press_reconciliation_witness :
    (60 : Nat) ∉ (((paReady.press_key KeyPressSource.User 60 true 0).update
        400000000).press_key KeyPressSource.File 60 true 400000000).required_notes :=
  (early_press_reconciliation paReady 60 0 400000000 (by decide) (by decide)).1

/-- C6: the stop-all signal is sent to the output sink on every `pause`, on
every `set_time` (hence on every `rewind` and `set_percentage_time`), and
on `Drop` of the player. -/
theorem stop_all_flush (p : MidiPlayer) (track : List MidiEvent)
    (time : Nat) (delta : Int) (percent : ℚ) :
    p.pause.output = p.output ++ [OutputCmd.stopAll] ∧
    (p.set_time track time).output = p.output ++ [OutputCmd.stopAll] ∧
    (p.rewind track delta).output = p.output ++ [OutputCmd.stopAll] ∧
    (p.set_percentage_time track percent).output
        = p.output ++ [OutputCmd.stopAll] ∧
    (MidiPlayer.drop p).output = p.output ++ [OutputCmd.stopAll] := by
  refine ⟨?_, set_time_output p track time, ?_, ?_, rfl⟩
  · simp [MidiPlayer.pause, MidiPlayer.clear, PlaybackState.pause]
  · exact set_time_output p track _
  · exact set_time_output p track _

/-- C7: a negative rewind larger than the current position saturates to
time zero, and `set_percentage_time` seeks to the fraction of the total
length clamped below at zero (so a nonpositive fraction lands exactly at
time zero). -/
theorem seek_clamping :
    (∀ (p : MidiPlayer) (track : List MidiEvent) (delta : Int),
      delta < 0 → p.playback.current_time ≤ delta.natAbs * 1000000 →
      (p.rewind track delta).playback.current_time = 0) ∧
    (∀ (p : MidiPlayer) (track : List MidiEvent) (percent : ℚ),
      (p.set_percentage_time track percent).playback.current_time
        = durFromSecs
            (max (percent * ((p.playback.lenght : ℚ) / 1000000000)) 0)) ∧
    (∀ (p : MidiPlayer) (track : List MidiEvent) (percent : ℚ),
      percent ≤ 0 →
      (p.set_percentage_time track percent).playback.current_time = 0) := by
  have hperc : ∀ (p : MidiPlayer) (track : List MidiEvent) (percent : ℚ),
      (p.set_percentage_time track percent).playback.current_time
        = durFromSecs
            (max (percent * ((p.playback.lenght : ℚ) / 1000000000)) 0) :=
    fun p track percent => set_time_current_time p track _
  refine ⟨?_, hperc, ?_⟩
  · intro p track delta hneg hle
    have h1 : (p.rewind track delta).playback.current_time
        = (if delta < 0 then p.playback.time - delta.natAbs * 1000000
           else p.playback.time + delta.natAbs * 1000000) := by
      simp only [MidiPlayer.rewind]
      exact set_time_current_time p track _
    rw [h1, if_pos hneg]
    exact Nat.sub_eq_zero_of_le hle
  · intro p track percent hq
    rw [hperc p track percent]
    have hm : max (percent * ((p.playback.lenght : ℚ) / 1000000000)) 0 = 0 := by
      refine max_eq_right ?_
      refine mul_nonpos_iff.mpr (Or.inr ⟨hq, ?_⟩)
      positivity
    rw [hm]
    simp [durFromSecs, Rat.floor_def']

theorem seek_clamping_witness :
    (mpFive.rewind [] (-10)).playback.current_time = 0 :=
  seek_clamping.1 mpFive [] (-10) (by decide) (by decide)

/-- C10: `MidiPlayer::update` returns `none` exactly when playback is
paused at the end of the call (the call never changes the paused flag), and
the play-along expiry sweep runs before the paused check, so when paused
the new play-along state is still the swept one. -/
theorem update_pause_contract (p : MidiPlayer) (track : List MidiEvent)
    (now delta : Nat) (speed_multiplier : ℚ) :
    ((p.update track now delta speed_multiplier).2 = none ↔
      (p.update track now delta speed_multiplier).1.playback.paused = true) ∧
    (p.update track now delta speed_multiplier).1.playback.paused
        = p.playback.paused ∧
    (p.playback.paused = true →
      (p.update track now delta speed_multiplier).1.play_along
          = p.play_along.update now ∧
      (p.update track now delta speed_multiplier).2 = none) := by
  by_cases h : p.playback.paused
  · simp [MidiPlayer.update, PlaybackState.update, PlaybackState.is_paused, h]
  · simp [MidiPlayer.update, PlaybackState.update, PlaybackState.is_paused, h]

theorem update_pause_contract_witness :
    (mpStop.update [] 0 0 1).2 = none :=
  ((update_pause_contract mpStop [] 0 0 1).2.2 rfl).2

/-- C5 counterexample: at a frame delta of 1.5ms and speed multiplier 1 the
elapsed duration handed to the clock is the full 1500000ns, while the
whole-millisecond-bucket formula of the claim would hand over only
1000000ns. -/
theorem speed_scaling_counterexample :
    (mpRun.update [] 0 1500000 1).1.playback.current_time = 1500000 ∧
    specElapsedMsBuckets 1500000 1 = 1000000 ∧
    (1500000 : Nat) ≠ 1000000 := by
  refine ⟨?_, ?_, by decide⟩
  · have hf : speedFactor 1 = 10 := by
      simp [speedFactor, Rat.floor_def']
    simp [MidiPlayer.update, PlaybackState.update, PlaybackState.is_paused,
      mpRun, pbRun, hf]
  · simp [specElapsedMsBuckets, Rat.floor_def']

/-- C5 amended: while not paused, the elapsed duration handed to the
playback clock is the delta integer-divided by ten (in whole nanoseconds)
multiplied by the speed multiplier times ten truncated to an integer — the
quantization is of the speed factor to tenths (and of the delta to a
multiple of ten nanoseconds), not of the delta into whole-millisecond
buckets. -/
theorem speed_scaling_quantization (p : MidiPlayer) (track : List MidiEvent)
    (now delta : Nat) (speed_multiplier : ℚ)
    (h : p.playback.paused = false) :
    (p.update track now delta speed_multiplier).1.playback.current_time
      = p.playback.current_time + delta / 10 * speedFactor speed_multiplier := by
  simp [MidiPlayer.update, PlaybackState.update, PlaybackState.is_paused, h]

theorem speed_scaling_quantization_witness :
    (mpRun.update [] 0 1500000 (3 / 2)).1.playback.current_time
      = mpRun.playback.current_time + 1500000 / 10 * speedFactor (3 / 2) :=
  speed_scaling_quantization mpRun [] 0 1500000 (3 / 2) rfl
